import Mathlib

/-!
The promise job dispatcher of `gjs/promise.cpp`.

A shallow embedding of `PromiseJobDispatcher` and of its custom `GSource`,
`PromiseJobDispatcher::Source`, followed by the properties of the scheduler
that its specification states.

The C++ object graph is flattened into one record, `State`:

* the fields of `Source` (`m_cancellable`, `m_cancellable_source`) and the
  fields of the underlying `GSource` that the code reads or writes
  (priority, ready time, attached context, child sources);
* the part of the GLib heap the code allocates from (the `GCancellable`
  objects and the identities of the child sources);
* the external job queue of `GjsContextPrivate`.

Every member function is a function on `State`.  The GLib primitives and the
job queue are not part of `promise.cpp`; they are modelled from the
specification, and each such definition says so.
-/

namespace Gjs

/-! ## The external job queue -/

/-- Modelled from the spec: what a promise job of the external queue does
when it runs, as far as the scheduler can observe it: it may enqueue further jobs and it may call `stop()` and `start()`
on the dispatcher that is draining it.  A body is a finite tree, so the jobs a
job transitively enqueues are finitely many and every drain ends; a family of
jobs that re-enqueues itself for ever, the starvation the source file
documents, has no drain that returns and is not described here. -/
inductive Script where
  | done : Script
  | enqueue (name : Nat) (body : Script) (next : Script) : Script
  | stop (next : Script) : Script
  | start (next : Script) : Script
  deriving DecidableEq, Repr

/-- Modelled from the spec: a job of the external queue: a name by which its
execution is recorded, and its body. -/
structure Job where
  name : Nat
  body : Script
  deriving DecidableEq, Repr

/-- Modelled from the spec: a child `GSource` created by
`g_cancellable_source_new`: its identity and the `GCancellable` it watches. -/
structure CancellableSource where
  id : Nat
  cancellable : Nat
  deriving DecidableEq, Repr

/-- Modelled from the spec: the two results of a dispatch function, `Remove`
and `Continue`, under the names the source file uses. -/
inductive DispatchResult where
  | G_SOURCE_REMOVE : DispatchResult
  | G_SOURCE_CONTINUE : DispatchResult
  deriving DecidableEq, Repr

export DispatchResult (G_SOURCE_REMOVE G_SOURCE_CONTINUE)

/-- The dispatcher, its source, and the part of the world they act on. -/
structure State where
  /-- `GjsContextPrivate`: the pending promise jobs, oldest first. -/
  queue : List Job
  /-- `GjsContextPrivate`: names of the jobs that have been run, in order. -/
  ran : List Nat
  /-- The number of calls of `runJobs` made so far. -/
  runJobsCalls : Nat
  /-- GLib heap: the `GCancellable` objects allocated so far, each with its
  cancelled flag; a cancellable is identified by its index. -/
  cancellables : List Bool
  /-- GLib heap: the identity the next allocated child source receives. -/
  nextSourceId : Nat
  /-- GLib heap: identities of the child sources passed to `g_source_destroy`. -/
  destroyed : List Nat
  /-- `PromiseJobDispatcher::m_main_context`, `Source::m_main_context`. -/
  m_main_context : Nat
  /-- How many times the source is registered in `m_main_context`. -/
  registrations : Nat
  /-- `Source::m_cancellable`. -/
  m_cancellable : Nat
  /-- `Source::m_cancellable_source`. -/
  m_cancellable_source : CancellableSource
  /-- `GSource`: the child sources of the source. -/
  children : List CancellableSource
  /-- `GSource`: the context the source is attached to, if any. -/
  context : Option Nat
  /-- `GSource`: the forced ready time, `-1` when none is set. -/
  ready_time : Int
  /-- `GSource`: the priority. -/
  priority : Int
  deriving DecidableEq, Repr

/-! ## GLib primitives -/

/-- Modelled from the spec: the platform's "high priority" constant of the
external loop, `G_PRIORITY_HIGH`; the source's comments give its value. -/
def G_PRIORITY_HIGH : Int := -100

/-- Modelled from the spec: the lowest ordinary priority of the external
loop, `G_PRIORITY_LOW`. -/
def G_PRIORITY_LOW : Int := 300

/-- Modelled from the spec: the query `is_cancelled()` of the one-shot
cancellation primitive. -/
def g_cancellable_is_cancelled (s : State) (c : Nat) : Bool :=
  s.cancellables.getD c false

/-- Modelled from the spec: `cancel()` of the one-shot cancellation
primitive; idempotent, and touches nothing but the flag. -/
def g_cancellable_cancel (s : State) (c : Nat) : State :=
  { s with cancellables := s.cancellables.set c true }

/-- Modelled from the spec: construction of a new cancellation primitive,
not cancelled; returns the new object and the new heap. -/
def g_cancellable_new (s : State) : Nat × State :=
  (s.cancellables.length, { s with cancellables := s.cancellables ++ [false] })

/-- Modelled from the spec: the wake sub-source paired with a cancellation
primitive. -/
def g_cancellable_source_new (s : State) (c : Nat) : CancellableSource × State :=
  ({ id := s.nextSourceId, cancellable := c },
   { s with nextSourceId := s.nextSourceId + 1 })

/-- Modelled from the spec: composing a child sub-source onto the source. -/
def g_source_add_child_source (s : State) (child : CancellableSource) : State :=
  { s with children := s.children ++ [child] }

/-- Modelled from the spec: removing a child sub-source from the composition
of an attached owner. -/
def g_source_remove_child_source (s : State) (child : CancellableSource) : State :=
  { s with children := s.children.filter (fun c => decide (c ≠ child)) }

/-- Modelled from the spec: destroying a child sub-source outright, which
also detaches it from its owner. -/
def g_source_destroy (s : State) (child : CancellableSource) : State :=
  { s with children := s.children.filter (fun c => decide (c ≠ child)),
           destroyed := child.id :: s.destroyed }

/-- Modelled from the spec: setting the fixed integer priority of the
source. -/
def g_source_set_priority (s : State) (p : Int) : State :=
  { s with priority := p }

/-- Modelled from the spec: forcing the source ready at a time, or clearing
the forced state with `-1`. -/
def g_source_set_ready_time (s : State) (t : Int) : State :=
  { s with ready_time := t }

/-- Modelled from the spec: the context the source is attached to. -/
def g_source_get_context (s : State) : Option Nat :=
  s.context

/-- Modelled from the spec: attaching the source to a loop context. -/
def g_source_attach (s : State) (ctx : Nat) : State :=
  { s with context := some ctx, registrations := s.registrations + 1 }

/-- Modelled from the spec: what the loop does with a source whose dispatch
reported `Remove`: the source is detached from the loop context. -/
def g_source_detach (s : State) : State :=
  { s with context := none, registrations := 0 }

/-! ## `PromiseJobDispatcher::Source` -/

/-- `Source::PRIORITY`. -/
def PRIORITY : Int := 10 * G_PRIORITY_HIGH

/-- `Source::is_running`. -/
def is_running (s : State) : Bool :=
  (g_source_get_context s).isSome

/-- `Source::cancel`. -/
def cancel (s : State) : State :=
  g_cancellable_cancel s s.m_cancellable

/-- `Source::reset`. -/
def reset (s : State) : State :=
  if !g_cancellable_is_cancelled s s.m_cancellable then s
  else
    let s1 :=
      if is_running s then g_source_remove_child_source s s.m_cancellable_source
      else g_source_destroy s s.m_cancellable_source
    let (c, s2) := g_cancellable_new s1
    let s3 := { s2 with m_cancellable := c }
    let (cs, s4) := g_cancellable_source_new s3 s3.m_cancellable
    let s5 := { s4 with m_cancellable_source := cs }
    g_source_add_child_source s5 s5.m_cancellable_source

/-! ## `PromiseJobDispatcher` -/

/-- `PromiseJobDispatcher::start`. -/
def start (s : State) : State :=
  let s1 := reset s
  if is_running s1 then s1
  else g_source_attach s1 s1.m_main_context

/-- `PromiseJobDispatcher::stop`. -/
def stop (s : State) : State :=
  cancel s

/-- The constructors of `PromiseJobDispatcher` and of `Source`, run in a
world with the given job queue, execution record, GLib heap and thread
default main context. -/
def construct (queue : List Job) (ran : List Nat) (heap : List Bool)
    (nextSourceId main_context : Nat) : State :=
  let s0 : State :=
    { queue := queue, ran := ran, runJobsCalls := 0,
      cancellables := heap, nextSourceId := nextSourceId, destroyed := [],
      m_main_context := main_context, registrations := 0,
      m_cancellable := 0,
      m_cancellable_source := { id := 0, cancellable := 0 },
      children := [], context := none, ready_time := -1, priority := 0 }
  let (c, s1) := g_cancellable_new s0
  let s2 := { s1 with m_cancellable := c }
  let (cs, s3) := g_cancellable_source_new s2 s2.m_cancellable
  let s4 := { s3 with m_cancellable_source := cs }
  let s5 := g_source_set_priority s4 PRIORITY
  g_source_add_child_source s5 s5.m_cancellable_source

/-! ## Draining -/

/-- Modelled from the spec: running the body of one job, whose calls of
`stop()` and `start()` reach the dispatcher that is draining it. -/
def runScript : Script → State → State
  | Script.done, s => s
  | Script.enqueue n b k, s =>
      runScript k { s with queue := s.queue ++ [{ name := n, body := b }] }
  | Script.stop k, s => runScript k (stop s)
  | Script.start k, s => runScript k (start s)

/-- Modelled from the spec: the drain loop of the external `runJobs`: it
runs the oldest queued job, and whatever that enqueues, until the queue is
empty or the token it was given is cancelled.  `none` when the fuel runs out
first. -/
def runJobsLoop : Nat → State → Nat → Option State
  | fuel, s, token =>
    match s.queue with
    | [] => some s
    | j :: rest =>
      if g_cancellable_is_cancelled s token then some s
      else
        match fuel with
        | 0 => none
        | fuel + 1 =>
          runJobsLoop fuel
            (runScript j.body { s with queue := rest, ran := s.ran ++ [j.name] })
            token

/-- Modelled from the spec: `GjsContextPrivate::runJobs(context, token)`. -/
def runJobs (fuel : Nat) (s : State) (token : Nat) : Option State :=
  runJobsLoop fuel { s with runJobsCalls := s.runJobsCalls + 1 } token

/-- Modelled from the spec: `GjsContextPrivate::empty`. -/
def empty (s : State) : Bool :=
  s.queue.isEmpty

/-- `Source::prepare`; the state is returned with the result, so that the
absence of side effects can be stated. -/
def prepare (s : State) : Bool × State :=
  (!empty s, s)

/-- `Source::dispatch`. -/
def dispatch (fuel : Nat) (s : State) : Option (DispatchResult × State) :=
  if g_cancellable_is_cancelled s s.m_cancellable then some (G_SOURCE_REMOVE, s)
  else
    let s1 := g_source_set_ready_time s (-1)
    let cancellable := s1.m_cancellable
    match runJobs fuel s1 cancellable with
    | none => none
    | some s2 => some (G_SOURCE_CONTINUE, s2)

/-- Modelled from the spec: one dispatch cycle of the loop on the source:
the source is dispatched, and detached when it reports `Remove`. -/
def dispatchCycle (fuel : Nat) (s : State) : Option State :=
  match dispatch fuel s with
  | none => none
  | some (G_SOURCE_REMOVE, s1) => some (g_source_detach s1)
  | some (G_SOURCE_CONTINUE, s1) => some s1

/-! ## Measures and observations used by the statements -/

/-- The number of jobs a script enqueues, directly or through the jobs it
enqueues. -/
def Script.size : Script → Nat
  | Script.done => 0
  | Script.enqueue _ b k => 1 + b.size + k.size
  | Script.stop k => k.size
  | Script.start k => k.size

/-- The number of jobs a drain of the queue runs at most: the queued jobs
and all the jobs they transitively enqueue. -/
def queueWeight : List Job → Nat
  | [] => 0
  | j :: rest => 1 + j.body.size + queueWeight rest

/-- Whether a script, or a job it transitively enqueues, calls `stop()`. -/
def Script.callsStop : Script → Bool
  | Script.done => false
  | Script.enqueue _ b k => b.callsStop || k.callsStop
  | Script.stop _ => true
  | Script.start k => k.callsStop

/-- Whether some queued job, or a job it transitively enqueues, calls
`stop()`. -/
def queueCallsStop : List Job → Bool
  | [] => false
  | j :: rest => j.body.callsStop || queueCallsStop rest

/-- The jobs a script enqueues directly, in order. -/
def Script.enqueued : Script → List Job
  | Script.done => []
  | Script.enqueue n b k => { name := n, body := b } :: k.enqueued
  | Script.stop k => k.enqueued
  | Script.start k => k.enqueued

/-- The names of all the jobs a script transitively enqueues. -/
def Script.spawned : Script → List Nat
  | Script.done => []
  | Script.enqueue n b k => n :: (b.spawned ++ k.spawned)
  | Script.stop k => k.spawned
  | Script.start k => k.spawned

/-- The names of the queued jobs and of all the jobs they transitively
enqueue. -/
def queueFamily : List Job → List Nat
  | [] => []
  | j :: rest => j.name :: (j.body.spawned ++ queueFamily rest)

/-- The object graph is well formed: the current cancellable is a live
object, the source has exactly one child, which is `m_cancellable_source` and
watches `m_cancellable`, the child was allocated, and the context registers
the source once when it is attached and not at all otherwise. -/
def Inv (s : State) : Prop :=
  s.m_cancellable < s.cancellables.length ∧
  s.children = [s.m_cancellable_source] ∧
  s.m_cancellable_source.cancellable = s.m_cancellable ∧
  s.m_cancellable_source.id < s.nextSourceId ∧
  s.registrations = (if s.context.isSome then 1 else 0)

instance (s : State) : Decidable (Inv s) := by
  unfold Inv
  infer_instance

/-- The sequence `start(); stop();` one dispatch cycle of the loop;
`start()`. -/
def restartSequence (fuel : Nat) (s : State) : Option State :=
  (dispatchCycle fuel (stop (start s))).map start

/-- The sequence `restartSequence`, repeated `n` times. -/
def restartSequences (fuel : Nat) : Nat → State → Option State
  | 0, s => some s
  | n + 1, s => (restartSequence fuel s).bind (restartSequences fuel n)

/-! ## The loop's choice among ready sources -/

/-- Modelled from the spec: a source attached to the loop, as the loop sees
it in one iteration. -/
structure LoopSource where
  id : Nat
  priority : Int
  ready : Bool
  deriving DecidableEq, Repr

/-- Modelled from the spec: insertion of a source into a list ordered by
priority value, after the sources of the same priority. -/
def insertByPriority (x : LoopSource) : List LoopSource → List LoopSource
  | [] => [x]
  | y :: ys =>
    if x.priority < y.priority then x :: y :: ys
    else y :: insertByPriority x ys

/-- Modelled from the spec: the order in which a loop that serves the lowest
priority value first dispatches the ready sources of one iteration. -/
def dispatchOrder (srcs : List LoopSource) : List LoopSource :=
  (srcs.filter (fun x => x.ready)).foldr insertByPriority []

/-- The drain source as the loop sees it: ready when `prepare` says so. -/
def drainSource (s : State) : LoopSource :=
  { id := 0, priority := s.priority, ready := (prepare s).1 }

/-- Whether the script itself calls `stop()`. -/
def Script.stops : Script → Bool
  | Script.done => false
  | Script.enqueue _ _ k => k.stops
  | Script.stop _ => true
  | Script.start k => k.stops

/-- Whether the script itself calls `start()`. -/
def Script.starts : Script → Bool
  | Script.done => false
  | Script.enqueue _ _ k => k.starts
  | Script.stop k => k.starts
  | Script.start _ => true

/-- The states a dispatcher can be in: it is constructed, its operations are
called, the interpreter enqueues jobs, and the loop runs dispatch cycles. -/
inductive Reachable : State → Prop where
  | construct (queue : List Job) (ran : List Nat) (heap : List Bool)
      (nextSourceId main_context : Nat) :
      Reachable (Gjs.construct queue ran heap nextSourceId main_context)
  | start (s : State) : Reachable s → Reachable (Gjs.start s)
  | stop (s : State) : Reachable s → Reachable (Gjs.stop s)
  | reset (s : State) : Reachable s → Reachable (Gjs.reset s)
  | enqueue (s : State) (j : Job) :
      Reachable s → Reachable { s with queue := s.queue ++ [j] }
  | cycle (fuel : Nat) (s s1 : State) :
      Reachable s → dispatchCycle fuel s = some s1 → Reachable s1

/-! ## Example states -/

/-- A job that, when run, enqueues a job named `2` which does nothing. -/
def jobA : Job :=
  { name := 1, body := Script.enqueue 2 Script.done Script.done }

/-- A job that calls `stop()` and nothing else. -/
def jobStop : Job :=
  { name := 3, body := Script.stop Script.done }

/-- A job that calls `stop()` and then `start()`. -/
def jobRestart : Job :=
  { name := 4, body := Script.stop (Script.start Script.done) }

/-- A job that does nothing. -/
def jobIdle : Job :=
  { name := 5, body := Script.done }

/-- A dispatcher constructed over the given queue in an otherwise empty
world. -/
def fresh (queue : List Job) : State :=
  construct queue [] [] 0 0

/-- A dispatcher constructed over the given queue and started. -/
def running (queue : List Job) : State :=
  start (fresh queue)

/-! ## Cancellables -/

theorem getD_append_false (l : List Bool) (t : Nat) :
    (l ++ [false]).getD t false = l.getD t false := by
  induction l generalizing t with
  | nil => cases t <;> simp [List.getD]
  | cons b l ih =>
    cases t with
    | zero => simp
    | succ t => simpa using ih t

theorem getD_set_true_of_true (l : List Bool) (c t : Nat)
    (h : l.getD t false = true) : (l.set c true).getD t false = true := by
  induction l generalizing c t with
  | nil => simp at h
  | cons b l ih =>
    cases c with
    | zero =>
      cases t with
      | zero => simp
      | succ t => simpa using h
    | succ c =>
      cases t with
      | zero => simpa using h
      | succ t => simpa using ih c t (by simpa using h)

theorem getD_set_true_self (l : List Bool) (c : Nat) (h : c < l.length) :
    (l.set c true).getD c false = true := by
  induction l generalizing c with
  | nil => simp at h
  | cons b l ih =>
    cases c with
    | zero => simp
    | succ c => simpa using ih c (by simpa using h)

theorem lt_length_of_getD_true (l : List Bool) (t : Nat)
    (h : l.getD t false = true) : t < l.length := by
  induction l generalizing t with
  | nil => simp at h
  | cons b l ih =>
    cases t with
    | zero => simp
    | succ t =>
      have := ih t (by simpa using h)
      simp
      omega

theorem getD_length_false (l : List Bool) : l.getD l.length false = false := by
  induction l with
  | nil => rfl
  | cons b l ih => simp

/-! ## `reset`, `start`, `stop`: field by field -/

theorem reset_of_not_cancelled (s : State)
    (h : g_cancellable_is_cancelled s s.m_cancellable = false) : reset s = s := by
  simp [reset, h]

theorem reset_of_cancelled (s : State)
    (h : g_cancellable_is_cancelled s s.m_cancellable = true) :
    reset s =
      { s with
        cancellables := s.cancellables ++ [false],
        m_cancellable := s.cancellables.length,
        nextSourceId := s.nextSourceId + 1,
        m_cancellable_source :=
          { id := s.nextSourceId, cancellable := s.cancellables.length },
        children :=
          s.children.filter (fun c => decide (c ≠ s.m_cancellable_source)) ++
            [{ id := s.nextSourceId, cancellable := s.cancellables.length }],
        destroyed :=
          if is_running s then s.destroyed
          else s.m_cancellable_source.id :: s.destroyed } := by
  cases hr : is_running s <;>
    simp [reset, h, hr, g_cancellable_new, g_cancellable_source_new,
      g_source_add_child_source, g_source_remove_child_source, g_source_destroy]

theorem reset_gate_not_cancelled (s : State) :
    g_cancellable_is_cancelled (reset s) (reset s).m_cancellable = false := by
  cases h : g_cancellable_is_cancelled s s.m_cancellable
  · rw [reset_of_not_cancelled s h]; exact h
  · rw [reset_of_cancelled s h]
    simp [g_cancellable_is_cancelled, getD_append_false, getD_length_false]

theorem reset_is_cancelled (s : State) (t : Nat) :
    g_cancellable_is_cancelled (reset s) t = g_cancellable_is_cancelled s t := by
  cases h : g_cancellable_is_cancelled s s.m_cancellable
  · rw [reset_of_not_cancelled s h]
  · rw [reset_of_cancelled s h]
    exact getD_append_false s.cancellables t

theorem reset_context (s : State) : (reset s).context = s.context := by
  cases h : g_cancellable_is_cancelled s s.m_cancellable
  · rw [reset_of_not_cancelled s h]
  · rw [reset_of_cancelled s h]

theorem reset_registrations (s : State) :
    (reset s).registrations = s.registrations := by
  cases h : g_cancellable_is_cancelled s s.m_cancellable
  · rw [reset_of_not_cancelled s h]
  · rw [reset_of_cancelled s h]

theorem reset_queue (s : State) : (reset s).queue = s.queue := by
  cases h : g_cancellable_is_cancelled s s.m_cancellable
  · rw [reset_of_not_cancelled s h]
  · rw [reset_of_cancelled s h]

theorem reset_ran (s : State) : (reset s).ran = s.ran := by
  cases h : g_cancellable_is_cancelled s s.m_cancellable
  · rw [reset_of_not_cancelled s h]
  · rw [reset_of_cancelled s h]

theorem reset_runJobsCalls (s : State) :
    (reset s).runJobsCalls = s.runJobsCalls := by
  cases h : g_cancellable_is_cancelled s s.m_cancellable
  · rw [reset_of_not_cancelled s h]
  · rw [reset_of_cancelled s h]

theorem reset_priority (s : State) : (reset s).priority = s.priority := by
  cases h : g_cancellable_is_cancelled s s.m_cancellable
  · rw [reset_of_not_cancelled s h]
  · rw [reset_of_cancelled s h]

theorem reset_ready_time (s : State) : (reset s).ready_time = s.ready_time := by
  cases h : g_cancellable_is_cancelled s s.m_cancellable
  · rw [reset_of_not_cancelled s h]
  · rw [reset_of_cancelled s h]

theorem reset_is_running (s : State) : is_running (reset s) = is_running s := by
  simp [is_running, g_source_get_context, reset_context]

theorem start_eq_of_running (s : State) (h : is_running s = true) :
    start s = reset s := by
  simp [start, reset_is_running, h]

theorem start_eq_of_not_running (s : State) (h : is_running s = false) :
    start s = g_source_attach (reset s) (reset s).m_main_context := by
  simp [start, reset_is_running, h]

theorem start_is_running (s : State) : is_running (start s) = true := by
  cases h : is_running s
  · rw [start_eq_of_not_running s h]; rfl
  · rw [start_eq_of_running s h, reset_is_running]; exact h

theorem start_is_cancelled (s : State) (t : Nat) :
    g_cancellable_is_cancelled (start s) t = g_cancellable_is_cancelled s t := by
  cases h : is_running s
  · rw [start_eq_of_not_running s h, ← reset_is_cancelled s t]; rfl
  · rw [start_eq_of_running s h, reset_is_cancelled]

theorem start_m_cancellable (s : State) :
    (start s).m_cancellable = (reset s).m_cancellable := by
  cases h : is_running s
  · rw [start_eq_of_not_running s h]; rfl
  · rw [start_eq_of_running s h]

theorem start_gate_not_cancelled (s : State) :
    g_cancellable_is_cancelled (start s) (start s).m_cancellable = false := by
  rw [start_is_cancelled, start_m_cancellable, ← reset_is_cancelled]
  exact reset_gate_not_cancelled s

theorem start_queue (s : State) : (start s).queue = s.queue := by
  cases h : is_running s
  · rw [start_eq_of_not_running s h, ← reset_queue s]; rfl
  · rw [start_eq_of_running s h, reset_queue]

theorem start_ran (s : State) : (start s).ran = s.ran := by
  cases h : is_running s
  · rw [start_eq_of_not_running s h, ← reset_ran s]; rfl
  · rw [start_eq_of_running s h, reset_ran]

theorem start_runJobsCalls (s : State) :
    (start s).runJobsCalls = s.runJobsCalls := by
  cases h : is_running s
  · rw [start_eq_of_not_running s h, ← reset_runJobsCalls s]; rfl
  · rw [start_eq_of_running s h, reset_runJobsCalls]

theorem start_priority (s : State) : (start s).priority = s.priority := by
  cases h : is_running s
  · rw [start_eq_of_not_running s h, ← reset_priority s]; rfl
  · rw [start_eq_of_running s h, reset_priority]

theorem stop_is_running (s : State) : is_running (stop s) = is_running s := rfl

theorem stop_context (s : State) : (stop s).context = s.context := rfl

theorem stop_registrations (s : State) :
    (stop s).registrations = s.registrations := rfl

theorem stop_queue (s : State) : (stop s).queue = s.queue := rfl

theorem stop_ran (s : State) : (stop s).ran = s.ran := rfl

theorem stop_runJobsCalls (s : State) :
    (stop s).runJobsCalls = s.runJobsCalls := rfl

theorem stop_priority (s : State) : (stop s).priority = s.priority := rfl

theorem stop_m_cancellable (s : State) :
    (stop s).m_cancellable = s.m_cancellable := rfl

theorem stop_is_cancelled_mono (s : State) (t : Nat)
    (h : g_cancellable_is_cancelled s t = true) :
    g_cancellable_is_cancelled (stop s) t = true := by
  simpa [stop, cancel, g_cancellable_cancel, g_cancellable_is_cancelled] using
    getD_set_true_of_true s.cancellables s.m_cancellable t h

theorem stop_gate_cancelled (s : State)
    (h : s.m_cancellable < s.cancellables.length) :
    g_cancellable_is_cancelled (stop s) (stop s).m_cancellable = true := by
  simpa [stop, cancel, g_cancellable_cancel, g_cancellable_is_cancelled] using
    getD_set_true_self s.cancellables s.m_cancellable h

/-! ## The invariant -/

theorem construct_inv (queue : List Job) (ran : List Nat) (heap : List Bool)
    (nextSourceId main_context : Nat) :
    Inv (construct queue ran heap nextSourceId main_context) := by
  simp [Inv, construct, g_cancellable_new, g_cancellable_source_new,
    g_source_set_priority, g_source_add_child_source]

theorem stop_inv (s : State) (h : Inv s) : Inv (stop s) := by
  obtain ⟨h1, h2, h3, h4, h5⟩ := h
  refine ⟨?_, h2, h3, h4, h5⟩
  simpa [stop, cancel, g_cancellable_cancel] using h1

theorem reset_inv (s : State) (h : Inv s) : Inv (reset s) := by
  cases hc : g_cancellable_is_cancelled s s.m_cancellable
  · rw [reset_of_not_cancelled s hc]; exact h
  · obtain ⟨h1, h2, h3, h4, h5⟩ := h
    rw [reset_of_cancelled s hc]
    refine ⟨?_, ?_, rfl, ?_, h5⟩
    · simp
    · simp [h2]
    · simp

theorem attach_inv (s : State) (h : Inv s) (hr : is_running s = false) :
    Inv (g_source_attach s s.m_main_context) := by
  obtain ⟨h1, h2, h3, h4, h5⟩ := h
  have hc : s.context = none := by
    simpa [is_running, g_source_get_context] using hr
  refine ⟨h1, h2, h3, h4, ?_⟩
  simp [g_source_attach, h5, hc]

theorem start_inv (s : State) (h : Inv s) : Inv (start s) := by
  cases hr : is_running s
  · rw [start_eq_of_not_running s hr]
    exact attach_inv (reset s) (reset_inv s h) (by rw [reset_is_running]; exact hr)
  · rw [start_eq_of_running s hr]; exact reset_inv s h

theorem detach_inv (s : State) (h : Inv s) : Inv (g_source_detach s) := by
  obtain ⟨h1, h2, h3, h4, _⟩ := h
  exact ⟨h1, h2, h3, h4, rfl⟩

/-! ## Running one job -/

theorem runScript_queue (k : Script) (s : State) :
    (runScript k s).queue = s.queue ++ k.enqueued := by
  induction k generalizing s with
  | done => simp [runScript, Script.enqueued]
  | enqueue n b k _ ih => simp [runScript, Script.enqueued, ih]
  | stop k ih => simp [runScript, Script.enqueued, ih, stop_queue]
  | start k ih => simp [runScript, Script.enqueued, ih, start_queue]

theorem runScript_ran (k : Script) (s : State) : (runScript k s).ran = s.ran := by
  induction k generalizing s with
  | done => rfl
  | enqueue n b k _ ih => simp [runScript, ih]
  | stop k ih => simp [runScript, ih, stop_ran]
  | start k ih => simp [runScript, ih, start_ran]

theorem runScript_runJobsCalls (k : Script) (s : State) :
    (runScript k s).runJobsCalls = s.runJobsCalls := by
  induction k generalizing s with
  | done => rfl
  | enqueue n b k _ ih => simp [runScript, ih]
  | stop k ih => simp [runScript, ih, stop_runJobsCalls]
  | start k ih => simp [runScript, ih, start_runJobsCalls]

theorem runScript_priority (k : Script) (s : State) :
    (runScript k s).priority = s.priority := by
  induction k generalizing s with
  | done => rfl
  | enqueue n b k _ ih => simp [runScript, ih]
  | stop k ih => simp [runScript, ih, stop_priority]
  | start k ih => simp [runScript, ih, start_priority]

theorem runScript_is_running (k : Script) (s : State) (h : is_running s = true) :
    is_running (runScript k s) = true := by
  induction k generalizing s with
  | done => exact h
  | enqueue n b k _ ih => exact ih _ h
  | stop k ih => exact ih _ h
  | start k ih => exact ih _ (start_is_running s)

theorem runScript_inv (k : Script) (s : State) (h : Inv s) : Inv (runScript k s) := by
  induction k generalizing s with
  | done => exact h
  | enqueue n b k _ ih => exact ih _ h
  | stop k ih => exact ih _ (stop_inv s h)
  | start k ih => exact ih _ (start_inv s h)

theorem runScript_is_cancelled_mono (k : Script) (s : State) (t : Nat)
    (h : g_cancellable_is_cancelled s t = true) :
    g_cancellable_is_cancelled (runScript k s) t = true := by
  induction k generalizing s with
  | done => exact h
  | enqueue n b k _ ih => exact ih _ h
  | stop k ih => exact ih _ (stop_is_cancelled_mono s t h)
  | start k ih => exact ih _ (by rw [start_is_cancelled]; exact h)

theorem stops_of_callsStop (k : Script) (hk : k.callsStop = false) :
    k.stops = false := by
  induction k with
  | done => rfl
  | enqueue n b k _ ih =>
    simp [Script.callsStop] at hk
    exact ih hk.2
  | stop k _ => simp [Script.callsStop] at hk
  | start k ih => exact ih hk

theorem runScript_is_cancelled_of_no_stop (k : Script) (s : State) (t : Nat)
    (hk : k.stops = false) :
    g_cancellable_is_cancelled (runScript k s) t = g_cancellable_is_cancelled s t := by
  induction k generalizing s with
  | done => rfl
  | enqueue n b k _ ih => exact ih _ hk
  | stop k _ => simp [Script.stops] at hk
  | start k ih =>
    rw [runScript, ih _ hk, start_is_cancelled]

theorem runScript_m_cancellable_of_no_start (k : Script) (s : State)
    (hk : k.starts = false) : (runScript k s).m_cancellable = s.m_cancellable := by
  induction k generalizing s with
  | done => rfl
  | enqueue n b k _ ih => exact ih _ hk
  | stop k ih => rw [runScript, ih _ hk, stop_m_cancellable]
  | start k _ => simp [Script.starts] at hk

theorem runScript_m_cancellable_of_no_stop (k : Script) (s : State)
    (hk : k.stops = false)
    (hc : g_cancellable_is_cancelled s s.m_cancellable = false) :
    (runScript k s).m_cancellable = s.m_cancellable := by
  induction k generalizing s with
  | done => rfl
  | enqueue n b k _ ih => exact ih _ hk hc
  | stop k _ => simp [Script.stops] at hk
  | start k ih =>
    have hm : (start s).m_cancellable = s.m_cancellable := by
      rw [start_m_cancellable, reset_of_not_cancelled s hc]
    rw [runScript, ih _ hk (by rw [start_is_cancelled, hm]; exact hc), hm]

/-! ## The drain loop -/

theorem runJobsLoop_nil (fuel : Nat) (s : State) (token : Nat) (h : s.queue = []) :
    runJobsLoop fuel s token = some s := by
  unfold runJobsLoop
  simp [h]

theorem runJobsLoop_cancelled (fuel : Nat) (s : State) (token : Nat)
    (h : g_cancellable_is_cancelled s token = true) :
    runJobsLoop fuel s token = some s := by
  unfold runJobsLoop
  cases hq : s.queue <;> simp [h]

theorem runJobsLoop_zero (s : State) (token : Nat) (j : Job) (rest : List Job)
    (hq : s.queue = j :: rest) (h : g_cancellable_is_cancelled s token = false) :
    runJobsLoop 0 s token = none := by
  unfold runJobsLoop
  simp [hq, h]

theorem runJobsLoop_succ (fuel : Nat) (s : State) (token : Nat) (j : Job)
    (rest : List Job) (hq : s.queue = j :: rest)
    (h : g_cancellable_is_cancelled s token = false) :
    runJobsLoop (fuel + 1) s token =
      runJobsLoop fuel
        (runScript j.body { s with queue := rest, ran := s.ran ++ [j.name] }) token := by
  rw [runJobsLoop]
  simp [hq, h]

theorem runJobsLoop_preserves (P : State → Prop)
    (hstep : ∀ (s : State) (j : Job) (rest : List Job), P s → s.queue = j :: rest →
      P (runScript j.body { s with queue := rest, ran := s.ran ++ [j.name] }))
    (fuel : Nat) (s s1 : State) (token : Nat) (h : P s)
    (hr : runJobsLoop fuel s token = some s1) : P s1 := by
  induction fuel generalizing s with
  | zero =>
    cases hq : s.queue with
    | nil =>
      rw [runJobsLoop_nil 0 s token hq] at hr
      cases hr; exact h
    | cons j rest =>
      cases hc : g_cancellable_is_cancelled s token
      · rw [runJobsLoop_zero s token j rest hq hc] at hr
        cases hr
      · rw [runJobsLoop_cancelled 0 s token hc] at hr
        cases hr; exact h
  | succ fuel ih =>
    cases hq : s.queue with
    | nil =>
      rw [runJobsLoop_nil _ s token hq] at hr
      cases hr; exact h
    | cons j rest =>
      cases hc : g_cancellable_is_cancelled s token
      · rw [runJobsLoop_succ fuel s token j rest hq hc] at hr
        exact ih _ (hstep s j rest h hq) hr
      · rw [runJobsLoop_cancelled _ s token hc] at hr
        cases hr; exact h

theorem queueWeight_append (q r : List Job) :
    queueWeight (q ++ r) = queueWeight q + queueWeight r := by
  induction q with
  | nil => simp [queueWeight]
  | cons j q ih => simp [queueWeight, ih]; omega

theorem queueWeight_enqueued (k : Script) : queueWeight k.enqueued = k.size := by
  induction k with
  | done => rfl
  | enqueue n b k _ ih => simp [Script.enqueued, queueWeight, Script.size, ih]
  | stop k ih => simpa [Script.enqueued, Script.size] using ih
  | start k ih => simpa [Script.enqueued, Script.size] using ih

theorem queueCallsStop_append (q r : List Job) :
    queueCallsStop (q ++ r) = (queueCallsStop q || queueCallsStop r) := by
  induction q with
  | nil => simp [queueCallsStop]
  | cons j q ih => simp [queueCallsStop, ih, Bool.or_assoc]

theorem queueCallsStop_enqueued (k : Script) (h : k.callsStop = false) :
    queueCallsStop k.enqueued = false := by
  induction k with
  | done => rfl
  | enqueue n b k _ ih =>
    simp [Script.callsStop] at h
    simp [Script.enqueued, queueCallsStop, h.1, ih h.2]
  | stop k _ => simp [Script.callsStop] at h
  | start k ih =>
    simp [Script.callsStop] at h
    simpa [Script.enqueued] using ih h

theorem queueFamily_append (q r : List Job) :
    queueFamily (q ++ r) = queueFamily q ++ queueFamily r := by
  induction q with
  | nil => simp [queueFamily]
  | cons j q ih => simp [queueFamily, ih]

theorem queueFamily_enqueued (k : Script) : queueFamily k.enqueued = k.spawned := by
  induction k with
  | done => rfl
  | enqueue n b k _ ih => simp [Script.enqueued, queueFamily, Script.spawned, ih]
  | stop k ih => simpa [Script.enqueued, Script.spawned] using ih
  | start k ih => simpa [Script.enqueued, Script.spawned] using ih

theorem runJobsLoop_total (fuel : Nat) (s : State) (token : Nat)
    (h : queueWeight s.queue ≤ fuel) : ∃ s1, runJobsLoop fuel s token = some s1 := by
  induction fuel generalizing s with
  | zero =>
    cases hq : s.queue with
    | nil => exact ⟨s, runJobsLoop_nil 0 s token hq⟩
    | cons j rest =>
      rw [hq] at h
      simp [queueWeight] at h
  | succ fuel ih =>
    cases hq : s.queue with
    | nil => exact ⟨s, runJobsLoop_nil _ s token hq⟩
    | cons j rest =>
      cases hc : g_cancellable_is_cancelled s token
      · rw [runJobsLoop_succ fuel s token j rest hq hc]
        apply ih
        rw [runScript_queue, queueWeight_append, queueWeight_enqueued]
        rw [hq] at h
        simp [queueWeight] at h ⊢
        omega
      · exact ⟨s, runJobsLoop_cancelled _ s token hc⟩

theorem runJobsLoop_drains (fuel : Nat) (s : State) (token : Nat)
    (hw : queueWeight s.queue ≤ fuel)
    (hc : g_cancellable_is_cancelled s token = false)
    (hs : queueCallsStop s.queue = false) :
    ∃ s1, runJobsLoop fuel s token = some s1 ∧ s1.queue = [] ∧
      List.Perm s1.ran (s.ran ++ queueFamily s.queue) := by
  induction fuel generalizing s with
  | zero =>
    cases hq : s.queue with
    | nil =>
      exact ⟨s, runJobsLoop_nil 0 s token hq, hq, by simp [queueFamily]⟩
    | cons j rest =>
      rw [hq] at hw
      simp [queueWeight] at hw
  | succ fuel ih =>
    cases hq : s.queue with
    | nil =>
      exact ⟨s, runJobsLoop_nil _ s token hq, hq, by simp [queueFamily]⟩
    | cons j rest =>
      rw [hq] at hw hs
      simp only [queueCallsStop, Bool.or_eq_false_iff] at hs
      have hw1 : queueWeight
          (runScript j.body { s with queue := rest, ran := s.ran ++ [j.name] }).queue ≤
          fuel := by
        rw [runScript_queue, queueWeight_append, queueWeight_enqueued]
        simp [queueWeight] at hw ⊢
        omega
      have hc1 : g_cancellable_is_cancelled
          (runScript j.body { s with queue := rest, ran := s.ran ++ [j.name] }) token =
          false := by
        rw [runScript_is_cancelled_of_no_stop _ _ _ (stops_of_callsStop _ hs.1)]
        exact hc
      have hs1 : queueCallsStop
          (runScript j.body { s with queue := rest, ran := s.ran ++ [j.name] }).queue =
          false := by
        rw [runScript_queue, queueCallsStop_append, queueCallsStop_enqueued _ hs.1]
        simp [hs.2]
      obtain ⟨s1, h1, h2, h3⟩ := ih _ hw1 hc1 hs1
      refine ⟨s1, ?_, h2, ?_⟩
      · rw [runJobsLoop_succ fuel s token j rest hq hc]
        exact h1
      · rw [runScript_ran, runScript_queue, queueFamily_append,
          queueFamily_enqueued] at h3
        refine h3.trans ?_
        simp only [queueFamily, List.append_assoc, List.singleton_append]
        refine List.Perm.append_left _ ?_
        refine List.Perm.cons _ ?_
        exact List.perm_append_comm

/-! ## `dispatch` -/

theorem dispatch_of_cancelled (fuel : Nat) (s : State)
    (h : g_cancellable_is_cancelled s s.m_cancellable = true) :
    dispatch fuel s = some (G_SOURCE_REMOVE, s) := by
  simp [dispatch, h]

theorem dispatch_of_not_cancelled (fuel : Nat) (s : State)
    (h : g_cancellable_is_cancelled s s.m_cancellable = false) :
    dispatch fuel s =
      (runJobs fuel (g_source_set_ready_time s (-1)) s.m_cancellable).map
        (fun s2 => (G_SOURCE_CONTINUE, s2)) := by
  have hm : (g_source_set_ready_time s (-1)).m_cancellable = s.m_cancellable := rfl
  simp only [dispatch, h, hm, Bool.false_eq_true, if_false]
  cases runJobs fuel (g_source_set_ready_time s (-1)) s.m_cancellable <;> rfl

theorem dispatch_continue_of_not_cancelled (fuel : Nat) (s : State)
    (h : g_cancellable_is_cancelled s s.m_cancellable = false)
    (hw : queueWeight s.queue ≤ fuel) :
    ∃ s1, dispatch fuel s = some (G_SOURCE_CONTINUE, s1) := by
  rw [dispatch_of_not_cancelled fuel s h]
  obtain ⟨s1, h1⟩ := runJobsLoop_total fuel
    { g_source_set_ready_time s (-1) with runJobsCalls := s.runJobsCalls + 1 }
    s.m_cancellable hw
  have h2 : runJobs fuel (g_source_set_ready_time s (-1)) s.m_cancellable = some s1 := h1
  exact ⟨s1, by rw [h2]; rfl⟩

theorem dispatch_preserves (P : State → Prop)
    (hstep : ∀ (s : State) (j : Job) (rest : List Job), P s → s.queue = j :: rest →
      P (runScript j.body { s with queue := rest, ran := s.ran ++ [j.name] }))
    (fuel : Nat) (s s1 : State) (r : DispatchResult)
    (h : P { g_source_set_ready_time s (-1) with runJobsCalls := s.runJobsCalls + 1 })
    (hn : g_cancellable_is_cancelled s s.m_cancellable = false)
    (hr : dispatch fuel s = some (r, s1)) : P s1 := by
  rw [dispatch_of_not_cancelled fuel s hn] at hr
  cases hl : runJobs fuel (g_source_set_ready_time s (-1)) s.m_cancellable with
  | none => rw [hl] at hr; cases hr
  | some s2 =>
    have h2 := runJobsLoop_preserves P hstep fuel _ s2 s.m_cancellable h hl
    rw [hl] at hr
    cases hr
    exact h2

theorem reset_m_cancellable_ne (s : State)
    (hv : s.m_cancellable < s.cancellables.length)
    (hc : g_cancellable_is_cancelled s s.m_cancellable = true) :
    (reset s).m_cancellable ≠ s.m_cancellable := by
  rw [reset_of_cancelled s hc]
  simp
  omega

theorem dispatch_first_job_cancels (fuel : Nat) (s : State) (j : Job)
    (rest : List Job)
    (hc : g_cancellable_is_cancelled s s.m_cancellable = false)
    (hq : s.queue = j :: rest)
    (hx : g_cancellable_is_cancelled
      (runScript j.body
        { s with queue := rest, ran := s.ran ++ [j.name],
                 runJobsCalls := s.runJobsCalls + 1, ready_time := -1 })
      s.m_cancellable = true) :
    dispatch (fuel + 1) s =
      some (G_SOURCE_CONTINUE,
        runScript j.body
          { s with queue := rest, ran := s.ran ++ [j.name],
                   runJobsCalls := s.runJobsCalls + 1, ready_time := -1 }) := by
  rw [dispatch_of_not_cancelled _ s hc]
  have h1 : runJobs (fuel + 1) (g_source_set_ready_time s (-1)) s.m_cancellable =
      runJobsLoop fuel
        (runScript j.body
          { s with queue := rest, ran := s.ran ++ [j.name],
                   runJobsCalls := s.runJobsCalls + 1, ready_time := -1 })
        s.m_cancellable :=
    runJobsLoop_succ fuel
      { g_source_set_ready_time s (-1) with runJobsCalls := s.runJobsCalls + 1 }
      s.m_cancellable j rest hq hc
  rw [h1, runJobsLoop_cancelled _ _ _ hx]
  rfl

theorem dispatchCycle_of_cancelled (fuel : Nat) (s : State)
    (h : g_cancellable_is_cancelled s s.m_cancellable = true) :
    dispatchCycle fuel s = some (g_source_detach s) := by
  simp [dispatchCycle, dispatch_of_cancelled fuel s h]

theorem dispatchCycle_of_continue (fuel : Nat) (s s1 : State)
    (h : dispatch fuel s = some (G_SOURCE_CONTINUE, s1)) :
    dispatchCycle fuel s = some s1 := by
  simp [dispatchCycle, h]

theorem runScript_stop_gate (k : Script) (s : State)
    (hv : s.m_cancellable < s.cancellables.length) (hk : k.starts = false) :
    g_cancellable_is_cancelled (runScript (Script.stop k) s) s.m_cancellable = true ∧
    (runScript (Script.stop k) s).m_cancellable = s.m_cancellable := by
  have hm : (runScript k (stop s)).m_cancellable = s.m_cancellable :=
    runScript_m_cancellable_of_no_start k _ hk
  have hx : g_cancellable_is_cancelled (runScript k (stop s)) s.m_cancellable = true :=
    runScript_is_cancelled_mono k _ _ (stop_gate_cancelled s hv)
  exact ⟨hx, hm⟩

theorem runScript_stop_start_gate (k : Script) (s : State)
    (hv : s.m_cancellable < s.cancellables.length) (hk : k.stops = false) :
    g_cancellable_is_cancelled (runScript (Script.stop (Script.start k)) s)
      s.m_cancellable = true ∧
    (runScript (Script.stop (Script.start k)) s).m_cancellable ≠ s.m_cancellable ∧
    g_cancellable_is_cancelled (runScript (Script.stop (Script.start k)) s)
      (runScript (Script.stop (Script.start k)) s).m_cancellable = false := by
  have ht : g_cancellable_is_cancelled (stop s) (stop s).m_cancellable = true :=
    stop_gate_cancelled s hv
  have hu := start_gate_not_cancelled (stop s)
  have hne : (start (stop s)).m_cancellable ≠ s.m_cancellable := by
    rw [start_m_cancellable]
    exact reset_m_cancellable_ne (stop s)
      (by simpa [stop, cancel, g_cancellable_cancel] using hv) ht
  have hx : g_cancellable_is_cancelled (runScript k (start (stop s)))
      s.m_cancellable = true :=
    runScript_is_cancelled_mono k _ _ (by rw [start_is_cancelled]; exact ht)
  have hm : (runScript k (start (stop s))).m_cancellable = (start (stop s)).m_cancellable :=
    runScript_m_cancellable_of_no_stop k _ hk hu
  have h2 : g_cancellable_is_cancelled (runScript k (start (stop s)))
      (start (stop s)).m_cancellable = false := by
    rw [runScript_is_cancelled_of_no_stop k _ _ hk]; exact hu
  refine ⟨hx, ?_, ?_⟩
  · show (runScript k (start (stop s))).m_cancellable ≠ s.m_cancellable
    rw [hm]; exact hne
  · show g_cancellable_is_cancelled (runScript k (start (stop s)))
      (runScript k (start (stop s))).m_cancellable = false
    rw [hm]; exact h2

theorem dispatch_drains (s : State) (fuel : Nat)
    (hc : g_cancellable_is_cancelled s s.m_cancellable = false)
    (hs : queueCallsStop s.queue = false)
    (hw : queueWeight s.queue ≤ fuel) :
    ∃ s1, dispatch fuel s = some (G_SOURCE_CONTINUE, s1) ∧
      s1.queue = [] ∧
      List.Perm s1.ran (s.ran ++ queueFamily s.queue) := by
  obtain ⟨s1, h1, h2, h3⟩ := runJobsLoop_drains fuel
    { g_source_set_ready_time s (-1) with runJobsCalls := s.runJobsCalls + 1 }
    s.m_cancellable hw hc hs
  have h4 : runJobs fuel (g_source_set_ready_time s (-1)) s.m_cancellable = some s1 := h1
  refine ⟨s1, ?_, h2, h3⟩
  rw [dispatch_of_not_cancelled fuel s hc, h4]; rfl

/-! ## Restarting -/

theorem restartSequence_eq (fuel : Nat) (s : State) (hi : Inv s) :
    restartSequence fuel s = some (start (g_source_detach (stop (start s)))) := by
  have hv : (start s).m_cancellable < (start s).cancellables.length := (start_inv s hi).1
  simp [restartSequence, dispatchCycle_of_cancelled fuel _ (stop_gate_cancelled _ hv)]

theorem restartSequences_spec (fuel n : Nat) (s : State) (hi : Inv s) :
    ∃ s1, restartSequences fuel (n + 1) s = some s1 ∧ Inv s1 ∧
      is_running s1 = true ∧
      g_cancellable_is_cancelled s1 s1.m_cancellable = false ∧
      s1.queue = s.queue ∧ s1.ran = s.ran := by
  have hi1 : Inv (start (g_source_detach (stop (start s)))) :=
    start_inv _ (detach_inv _ (stop_inv _ (start_inv s hi)))
  have hq : (start (g_source_detach (stop (start s)))).queue = s.queue := by
    rw [start_queue]
    show (start s).queue = s.queue
    exact start_queue s
  have hran : (start (g_source_detach (stop (start s)))).ran = s.ran := by
    rw [start_ran]
    show (start s).ran = s.ran
    exact start_ran s
  induction n generalizing s with
  | zero =>
    refine ⟨start (g_source_detach (stop (start s))), ?_, hi1, start_is_running _,
      start_gate_not_cancelled _, hq, hran⟩
    simp [restartSequences, restartSequence_eq fuel s hi]
  | succ n ih =>
    obtain ⟨s1, h1, h2, h3, h4, h5, h6⟩ :=
      ih (start (g_source_detach (stop (start s)))) hi1
        (start_inv _ (detach_inv _ (stop_inv _ (start_inv _ hi1))))
        (by rw [start_queue]; show (start _).queue = _; exact start_queue _)
        (by rw [start_ran]; show (start _).ran = _; exact start_ran _)
    refine ⟨s1, ?_, h2, h3, h4, h5.trans hq, h6.trans hran⟩
    rw [restartSequences, restartSequence_eq fuel s hi]
    exact h1

/-! ## Priorities -/

theorem mem_insertByPriority (x y : LoopSource) (l : List LoopSource) :
    y ∈ insertByPriority x l ↔ y = x ∨ y ∈ l := by
  induction l with
  | nil => simp [insertByPriority]
  | cons z zs ih =>
    unfold insertByPriority
    split
    · simp
    · simp [ih]
      tauto

theorem mem_dispatchOrder (x : LoopSource) (srcs : List LoopSource) :
    x ∈ dispatchOrder srcs ↔ x ∈ srcs ∧ x.ready = true := by
  unfold dispatchOrder
  induction srcs with
  | nil => simp
  | cons y ys ih =>
    by_cases hy : y.ready = true
    · rw [List.filter_cons_of_pos (by simpa using hy), List.foldr_cons,
        mem_insertByPriority, ih, List.mem_cons]
      constructor
      · rintro (h | h)
        · exact ⟨Or.inl h, h ▸ hy⟩
        · exact ⟨Or.inr h.1, h.2⟩
      · rintro ⟨h | h, h2⟩
        · exact Or.inl h
        · exact Or.inr ⟨h, h2⟩
    · rw [List.filter_cons_of_neg (by simpa using hy), ih, List.mem_cons]
      constructor
      · rintro ⟨h, h2⟩
        exact ⟨Or.inr h, h2⟩
      · rintro ⟨h | h, h2⟩
        · exact absurd (h ▸ h2) hy
        · exact ⟨h, h2⟩

theorem pairwise_insertByPriority (x : LoopSource) (l : List LoopSource)
    (h : l.Pairwise (fun a b => a.priority ≤ b.priority)) :
    (insertByPriority x l).Pairwise (fun a b => a.priority ≤ b.priority) := by
  induction l with
  | nil => simp [insertByPriority]
  | cons z zs ih =>
    rw [List.pairwise_cons] at h
    unfold insertByPriority
    split
    · rename_i hlt
      rw [List.pairwise_cons]
      refine ⟨?_, List.pairwise_cons.mpr h⟩
      intro a ha
      rcases List.mem_cons.mp ha with rfl | ha
      · omega
      · have := h.1 a ha
        omega
    · rename_i hge
      rw [List.pairwise_cons]
      refine ⟨?_, ih h.2⟩
      intro a ha
      rcases (mem_insertByPriority x a zs).mp ha with rfl | ha
      · omega
      · exact h.1 a ha

theorem pairwise_dispatchOrder (srcs : List LoopSource) :
    (dispatchOrder srcs).Pairwise (fun a b => a.priority ≤ b.priority) := by
  unfold dispatchOrder
  induction srcs.filter (fun x => x.ready) with
  | nil => simp
  | cons y ys ih => exact pairwise_insertByPriority y _ ih

theorem indexOf_lt_of_priority_lt (l : List LoopSource) (d o : LoopSource)
    (hl : l.Pairwise (fun a b => a.priority ≤ b.priority))
    (hd : d ∈ l) (ho : o ∈ l) (hp : d.priority < o.priority) :
    l.indexOf d < l.indexOf o := by
  induction l with
  | nil => simp at hd
  | cons x xs ih =>
    rw [List.pairwise_cons] at hl
    have hdo : d ≠ o := fun h => by rw [h] at hp; omega
    by_cases hxd : x = d
    · rw [List.indexOf_cons_eq _ hxd, List.indexOf_cons_ne _ (by rw [hxd]; exact hdo)]
      omega
    · have hd1 : d ∈ xs := by
        rcases List.mem_cons.mp hd with h | h
        · exact absurd h.symm hxd
        · exact h
      have hxo : x ≠ o := by
        intro h
        have := hl.1 d hd1
        rw [h] at this
        omega
      have ho1 : o ∈ xs := by
        rcases List.mem_cons.mp ho with h | h
        · exact absurd h.symm hxo
        · exact h
      rw [List.indexOf_cons_ne _ hxd, List.indexOf_cons_ne _ hxo]
      have := ih hl.2 hd1 ho1
      omega

/-! ## Adequacy of the fuel, and the invariant on every reachable state -/

theorem runJobsLoop_exit (fuel : Nat) (s s1 : State) (token : Nat)
    (h : runJobsLoop fuel s token = some s1) :
    s1.queue = [] ∨ g_cancellable_is_cancelled s1 token = true := by
  induction fuel generalizing s with
  | zero =>
    cases hq : s.queue with
    | nil =>
      rw [runJobsLoop_nil 0 s token hq] at h
      cases h; exact Or.inl hq
    | cons j rest =>
      cases hc : g_cancellable_is_cancelled s token
      · rw [runJobsLoop_zero s token j rest hq hc] at h
        cases h
      · rw [runJobsLoop_cancelled 0 s token hc] at h
        cases h; exact Or.inr hc
  | succ fuel ih =>
    cases hq : s.queue with
    | nil =>
      rw [runJobsLoop_nil _ s token hq] at h
      cases h; exact Or.inl hq
    | cons j rest =>
      cases hc : g_cancellable_is_cancelled s token
      · rw [runJobsLoop_succ fuel s token j rest hq hc] at h
        exact ih _ h
      · rw [runJobsLoop_cancelled _ s token hc] at h
        cases h; exact Or.inr hc

theorem runJobsLoop_fuel_mono (fuel extra : Nat) (s s1 : State) (token : Nat)
    (h : runJobsLoop fuel s token = some s1) :
    runJobsLoop (fuel + extra) s token = some s1 := by
  induction fuel generalizing s with
  | zero =>
    cases hq : s.queue with
    | nil =>
      rw [runJobsLoop_nil 0 s token hq] at h
      rw [runJobsLoop_nil _ s token hq]; exact h
    | cons j rest =>
      cases hc : g_cancellable_is_cancelled s token
      · rw [runJobsLoop_zero s token j rest hq hc] at h
        cases h
      · rw [runJobsLoop_cancelled 0 s token hc] at h
        rw [runJobsLoop_cancelled _ s token hc]; exact h
  | succ fuel ih =>
    cases hq : s.queue with
    | nil =>
      rw [runJobsLoop_nil _ s token hq] at h
      rw [runJobsLoop_nil _ s token hq]; exact h
    | cons j rest =>
      cases hc : g_cancellable_is_cancelled s token
      · rw [runJobsLoop_succ fuel s token j rest hq hc] at h
        rw [Nat.add_right_comm, runJobsLoop_succ _ s token j rest hq hc]
        exact ih _ h
      · rw [runJobsLoop_cancelled _ s token hc] at h
        rw [runJobsLoop_cancelled _ s token hc]; exact h

theorem dispatch_inv (fuel : Nat) (s s1 : State) (r : DispatchResult) (hi : Inv s)
    (h : dispatch fuel s = some (r, s1)) : Inv s1 := by
  cases hc : g_cancellable_is_cancelled s s.m_cancellable
  · exact dispatch_preserves Inv (fun x j rest hx _ => runScript_inv _ _ hx)
      fuel s s1 r hi hc h
  · rw [dispatch_of_cancelled fuel s hc] at h
    cases h
    exact hi

theorem dispatchCycle_inv (fuel : Nat) (s s1 : State) (hi : Inv s)
    (h : dispatchCycle fuel s = some s1) : Inv s1 := by
  unfold dispatchCycle at h
  cases hd : dispatch fuel s with
  | none => rw [hd] at h; cases h
  | some p =>
    obtain ⟨r, s2⟩ := p
    have h2 := dispatch_inv fuel s s2 r hi hd
    rw [hd] at h
    cases r
    · cases h
      exact detach_inv s2 h2
    · cases h
      exact h2

theorem reachable_inv (s : State) (h : Reachable s) : Inv s := by
  induction h with
  | construct queue ran heap nextSourceId main_context => exact construct_inv _ _ _ _ _
  | start s _ ih => exact start_inv s ih
  | stop s _ ih => exact stop_inv s ih
  | reset s _ ih => exact reset_inv s ih
  | enqueue s j _ ih => exact ih
  | cycle fuel s s1 _ hc ih => exact dispatchCycle_inv fuel s s1 ih hc

/-! ## The claims -/

/-- C1: `prepare()` returns true exactly when the external job queue is not
empty, and it has no side effect: the state after the call (queue, gate,
attachment, forced ready time and all the rest) is the state before it; with
an empty queue the result is false whatever the gate's state. -/
theorem prepare_iff_queue_nonempty (s : State) :
    ((prepare s).1 = true ↔ s.queue ≠ []) ∧
    (prepare s).2 = s ∧
    (s.queue = [] → (prepare s).1 = false) := by
  refine ⟨?_, rfl, ?_⟩
  · cases hq : s.queue <;> simp [prepare, empty, hq]
  · intro hq
    simp [prepare, empty, hq]

/-- C2: `dispatch()` returns `Remove` exactly when the current gate is
cancelled at entry; it then leaves the whole state as it was, so `runJobs` is
not called, no job is run or lost and the ready time is not touched.  When the
gate is not cancelled it calls `runJobs` once and returns `Continue`. -/
theorem dispatch_remove_iff_cancelled (s : State) :
    (g_cancellable_is_cancelled s s.m_cancellable = true →
      ∀ fuel, dispatch fuel s = some (G_SOURCE_REMOVE, s)) ∧
    (g_cancellable_is_cancelled s s.m_cancellable = false →
      ∀ fuel, queueWeight s.queue ≤ fuel →
        ∃ s1, dispatch fuel s = some (G_SOURCE_CONTINUE, s1) ∧
          s1.runJobsCalls = s.runJobsCalls + 1) ∧
    (∀ fuel r s1, dispatch fuel s = some (r, s1) →
      (r = G_SOURCE_REMOVE ↔ g_cancellable_is_cancelled s s.m_cancellable = true) ∧
      (r = G_SOURCE_REMOVE → s1 = s ∧ s1.queue = s.queue ∧ s1.ran = s.ran ∧
        s1.runJobsCalls = s.runJobsCalls ∧ s1.ready_time = s.ready_time)) := by
  refine ⟨fun h fuel => dispatch_of_cancelled fuel s h, ?_, ?_⟩
  · intro h fuel hw
    obtain ⟨s1, h1⟩ := dispatch_continue_of_not_cancelled fuel s h hw
    refine ⟨s1, h1, ?_⟩
    exact dispatch_preserves (fun x => x.runJobsCalls = s.runJobsCalls + 1)
      (fun x j rest hx _ => by simpa [runScript_runJobsCalls] using hx)
      fuel s s1 _ rfl h h1
  · intro fuel r s1 hr
    cases h : g_cancellable_is_cancelled s s.m_cancellable
    · rw [dispatch_of_not_cancelled fuel s h] at hr
      cases hl : runJobs fuel (g_source_set_ready_time s (-1)) s.m_cancellable with
      | none => rw [hl] at hr; cases hr
      | some s2 =>
        rw [hl] at hr
        cases hr
        simp
    · rw [dispatch_of_cancelled fuel s h] at hr
      cases hr
      simp

/-- Witness of C2: the same queue dispatched with the gate not cancelled
(the jobs run, `Continue`) and with the gate cancelled (`Remove`, nothing
touched). -/
theorem dispatch_remove_iff_cancelled_witness :
    dispatch 2 (stop (running [jobA])) = some (G_SOURCE_REMOVE, stop (running [jobA])) ∧
    (dispatch 2 (running [jobA])).map (fun p => (p.1, p.2.runJobsCalls, p.2.ready_time)) =
      some (G_SOURCE_CONTINUE, 1, -1) :=
  ⟨(dispatch_remove_iff_cancelled (stop (running [jobA]))).1 (by decide) 2, by decide⟩

/-- C3: full drain.  When the gate is not cancelled at entry and no job calls
`stop()`, one `dispatch()` with enough fuel returns `Continue` having run
every job queued at entry and every job those transitively enqueued, each
once; the queue is then empty and `prepare()` returns false. -/
theorem dispatch_full_drain (s : State) (fuel : Nat)
    (hc : g_cancellable_is_cancelled s s.m_cancellable = false)
    (hs : queueCallsStop s.queue = false)
    (hw : queueWeight s.queue ≤ fuel) :
    ∃ s1, dispatch fuel s = some (G_SOURCE_CONTINUE, s1) ∧
      s1.queue = [] ∧
      List.Perm s1.ran (s.ran ++ queueFamily s.queue) ∧
      (prepare s1).1 = false := by
  obtain ⟨s1, h1, h2, h3⟩ := runJobsLoop_drains fuel
    { g_source_set_ready_time s (-1) with runJobsCalls := s.runJobsCalls + 1 }
    s.m_cancellable hw hc hs
  have h4 : runJobs fuel (g_source_set_ready_time s (-1)) s.m_cancellable = some s1 := h1
  refine ⟨s1, ?_, h2, h3, ?_⟩
  · rw [dispatch_of_not_cancelled fuel s hc, h4]; rfl
  · simp [prepare, empty, h2]

/-- Witness of C3: job `1` enqueues job `2` when run; one `dispatch()` of the
started dispatcher runs both, in that order, and empties the queue. -/
theorem dispatch_full_drain_witness :
    (∃ s1, dispatch 2 (running [jobA]) = some (G_SOURCE_CONTINUE, s1) ∧
      s1.queue = [] ∧
      List.Perm s1.ran ((running [jobA]).ran ++ queueFamily (running [jobA]).queue) ∧
      (prepare s1).1 = false) ∧
    (dispatch 2 (running [jobA])).map (fun p => (p.1, p.2.ran, p.2.queue)) =
      some (G_SOURCE_CONTINUE, [1, 2], []) :=
  ⟨dispatch_full_drain (running [jobA]) 2 (by decide) (by decide) (by decide),
    by decide⟩

/-- C4: idempotent start.  In every state a second `start()` changes
nothing: it performs no attach, the state is that of a single `start()`, and
the source is running.  The loop context then registers the source exactly
once, provided the registration count was consistent before (as it is in every
state the dispatcher can reach). -/
theorem start_idempotent (s : State) :
    start (start s) = start s ∧
    is_running (start s) = true ∧
    is_running (start (start s)) = true ∧
    start (start s) = reset (start s) ∧
    (start (start s)).registrations = (start s).registrations ∧
    (Inv s → (start s).registrations = 1 ∧ (start (start s)).registrations = 1) := by
  have hr : is_running (start s) = true := start_is_running s
  have h1 : start (start s) = reset (start s) := start_eq_of_running (start s) hr
  have h2 : reset (start s) = start s :=
    reset_of_not_cancelled (start s) (start_gate_not_cancelled s)
  refine ⟨h1.trans h2, hr, start_is_running _, h1, by rw [h1, h2], ?_⟩
  intro hi
  have h3 : (start s).registrations = 1 := by
    have h5 := (start_inv s hi).2.2.2.2
    have hc : (start s).context.isSome = true := hr
    simpa [hc] using h5
  refine ⟨h3, ?_⟩
  rw [h1, h2]; exact h3

/-- Witness of C4: a dispatcher that was constructed and never started, and
one that was started and then stopped. -/
theorem start_idempotent_witness :
    (Inv (fresh [jobA]) ∧
      (start (fresh [jobA])).registrations = 1 ∧
      (start (start (fresh [jobA]))).registrations = 1) ∧
    (Inv (stop (running [jobA])) ∧
      (start (stop (running [jobA]))).registrations = 1 ∧
      (start (start (stop (running [jobA])))).registrations = 1) ∧
    start (start (stop (running [jobA]))) = start (stop (running [jobA])) :=
  ⟨⟨by decide, (start_idempotent (fresh [jobA])).2.2.2.2.2 (by decide)⟩,
    ⟨by decide, (start_idempotent (stop (running [jobA]))).2.2.2.2.2 (by decide)⟩,
    by decide⟩

/-- C7: `reset()` on a gate that is not cancelled is a no-op: the state after
it is the state before it, token, child source, attachment and queue
included. -/
theorem reset_noop_when_not_cancelled (s : State)
    (h : g_cancellable_is_cancelled s s.m_cancellable = false) :
    reset s = s ∧
    (reset s).m_cancellable = s.m_cancellable ∧
    (reset s).m_cancellable_source = s.m_cancellable_source ∧
    (reset s).children = s.children ∧
    (reset s).context = s.context ∧
    (reset s).queue = s.queue := by
  rw [reset_of_not_cancelled s h]
  exact ⟨rfl, rfl, rfl, rfl, rfl, rfl⟩

/-- Witness of C7: `reset()` on a running dispatcher that was never
cancelled. -/
theorem reset_noop_when_not_cancelled_witness :
    g_cancellable_is_cancelled (running [jobA]) (running [jobA]).m_cancellable = false ∧
    reset (running [jobA]) = running [jobA] :=
  ⟨by decide, (reset_noop_when_not_cancelled (running [jobA]) (by decide)).1⟩

/-- C8: `reset()` on a cancelled gate, attached or not, replaces the gate: the
current token is a new one and is not cancelled, the old token stays
cancelled, the old child source is no longer a child, the only child is the
new source paired with the new token, the attachment is unchanged, and the
next `dispatch()` returns `Continue`, never `Remove`. -/
theorem reset_replaces_cancelled_gate (s : State) (hi : Inv s)
    (hc : g_cancellable_is_cancelled s s.m_cancellable = true) :
    (reset s).m_cancellable ≠ s.m_cancellable ∧
    g_cancellable_is_cancelled (reset s) (reset s).m_cancellable = false ∧
    g_cancellable_is_cancelled (reset s) s.m_cancellable = true ∧
    s.m_cancellable_source ∉ (reset s).children ∧
    (reset s).children = [(reset s).m_cancellable_source] ∧
    (reset s).m_cancellable_source.cancellable = (reset s).m_cancellable ∧
    (reset s).context = s.context ∧
    is_running (reset s) = is_running s ∧
    (reset s).registrations = s.registrations ∧
    (reset s).queue = s.queue ∧
    (∀ fuel, queueWeight s.queue ≤ fuel →
      ∃ s1, dispatch fuel (reset s) = some (G_SOURCE_CONTINUE, s1)) ∧
    (∀ fuel s1, dispatch fuel (reset s) ≠ some (G_SOURCE_REMOVE, s1)) := by
  obtain ⟨h1, h2, h3, h4, h5⟩ := hi
  have hn := reset_gate_not_cancelled s
  have hinv := reset_inv s ⟨h1, h2, h3, h4, h5⟩
  have hne : (reset s).m_cancellable_source ≠ s.m_cancellable_source := by
    rw [reset_of_cancelled s hc]
    intro he
    have hid := congrArg CancellableSource.id he
    simp at hid
    omega
  refine ⟨?_, hn, ?_, ?_, hinv.2.1, hinv.2.2.1, reset_context s, reset_is_running s,
    reset_registrations s, reset_queue s, ?_, ?_⟩
  · rw [reset_of_cancelled s hc]
    simp
    omega
  · rw [reset_is_cancelled]; exact hc
  · rw [hinv.2.1]
    simpa using hne.symm
  · intro fuel hw
    exact dispatch_continue_of_not_cancelled fuel (reset s) hn
      (by rw [reset_queue]; exact hw)
  · intro fuel s1 hd
    rw [dispatch_of_not_cancelled fuel (reset s) hn] at hd
    cases hl : runJobs fuel (g_source_set_ready_time (reset s) (-1))
        (reset s).m_cancellable with
    | none => rw [hl] at hd; cases hd
    | some s2 => rw [hl] at hd; cases hd

/-- Witness of C8: a cancelled gate on an attached source (the branch that
removes the child) and on a source that was never attached (the branch that
destroys it). -/
theorem reset_replaces_cancelled_gate_witness :
    ((reset (stop (running [jobA]))).m_cancellable ≠ (stop (running [jobA])).m_cancellable ∧
      is_running (reset (stop (running [jobA]))) = true ∧
      (reset (stop (running [jobA]))).destroyed = []) ∧
    ((reset (stop (fresh [jobA]))).m_cancellable ≠ (stop (fresh [jobA])).m_cancellable ∧
      is_running (reset (stop (fresh [jobA]))) = false ∧
      (reset (stop (fresh [jobA]))).destroyed = [0]) :=
  ⟨⟨(reset_replaces_cancelled_gate (stop (running [jobA])) (by decide) (by decide)).1,
      by decide, by decide⟩,
    ⟨(reset_replaces_cancelled_gate (stop (fresh [jobA])) (by decide) (by decide)).1,
      by decide, by decide⟩⟩

/-- C5: deferred cancellation.  On an attached source `stop()` detaches
nothing: the source is still running right after it.  A `dispatch()` that
began with a gate that was not cancelled returns `Continue` and leaves the
source attached even when a job called `stop()` during it; that job runs to
its end.  Only the next `dispatch()` returns `Remove`, and the source stops
running only once the loop has acted on that result. -/
theorem stop_is_deferred (s : State) (hi : Inv s) (hr : is_running s = true) :
    is_running (stop s) = true ∧
    (stop s).registrations = s.registrations ∧
    (∀ fuel, dispatch fuel (stop s) = some (G_SOURCE_REMOVE, stop s) ∧
      dispatchCycle fuel (stop s) = some (g_source_detach (stop s))) ∧
    is_running (g_source_detach (stop s)) = false ∧
    (g_cancellable_is_cancelled s s.m_cancellable = false →
      (∀ fuel, queueWeight s.queue ≤ fuel →
        ∃ s1, dispatch fuel s = some (G_SOURCE_CONTINUE, s1) ∧
          dispatchCycle fuel s = some s1 ∧ is_running s1 = true ∧
          (g_cancellable_is_cancelled s1 s1.m_cancellable = true →
            ∀ fuel2, dispatch fuel2 s1 = some (G_SOURCE_REMOVE, s1) ∧
              dispatchCycle fuel2 s1 = some (g_source_detach s1))) ∧
      (∀ fuel n k rest, s.queue = { name := n, body := Script.stop k } :: rest →
        k.starts = false →
        ∃ s1, dispatch (fuel + 1) s = some (G_SOURCE_CONTINUE, s1) ∧
          is_running s1 = true ∧
          s1.ran = s.ran ++ [n] ∧
          s1.queue = rest ++ k.enqueued ∧
          g_cancellable_is_cancelled s1 s1.m_cancellable = true ∧
          ∀ fuel2, dispatch fuel2 s1 = some (G_SOURCE_REMOVE, s1) ∧
            dispatchCycle fuel2 s1 = some (g_source_detach s1) ∧
            is_running (g_source_detach s1) = false)) := by
  have hv : s.m_cancellable < s.cancellables.length := hi.1
  have hsc := stop_gate_cancelled s hv
  refine ⟨hr, rfl, fun fuel => ⟨dispatch_of_cancelled fuel _ hsc,
    dispatchCycle_of_cancelled fuel _ hsc⟩, rfl, ?_⟩
  intro hc
  refine ⟨?_, ?_⟩
  · intro fuel hw
    obtain ⟨s1, h1⟩ := dispatch_continue_of_not_cancelled fuel s hc hw
    refine ⟨s1, h1, dispatchCycle_of_continue fuel s s1 h1, ?_, ?_⟩
    · exact dispatch_preserves (fun x => is_running x = true)
        (fun x j rest hx _ => runScript_is_running _ _ hx) fuel s s1 _ hr hc h1
    · intro hg fuel2
      exact ⟨dispatch_of_cancelled fuel2 _ hg, dispatchCycle_of_cancelled fuel2 _ hg⟩
  · intro fuel n k rest hq hk
    obtain ⟨hx, hm⟩ := runScript_stop_gate k
      { s with queue := rest, ran := s.ran ++ [n],
               runJobsCalls := s.runJobsCalls + 1, ready_time := -1 } hv hk
    have hd := dispatch_first_job_cancels fuel s
      { name := n, body := Script.stop k } rest hc hq hx
    have hg : g_cancellable_is_cancelled
        (runScript (Script.stop k)
          { s with queue := rest, ran := s.ran ++ [n],
                   runJobsCalls := s.runJobsCalls + 1, ready_time := -1 })
        (runScript (Script.stop k)
          { s with queue := rest, ran := s.ran ++ [n],
                   runJobsCalls := s.runJobsCalls + 1, ready_time := -1 }).m_cancellable =
        true := by
      rw [hm]; exact hx
    refine ⟨_, hd, ?_, ?_, ?_, hg, ?_⟩
    · exact runScript_is_running _ _ hr
    · rw [runScript_ran]
    · rw [runScript_queue]; rfl
    · intro fuel2
      exact ⟨dispatch_of_cancelled fuel2 _ hg, dispatchCycle_of_cancelled fuel2 _ hg, rfl⟩

/-- Witness of C5: the first queued job calls `stop()`; the dispatch in which
it runs returns `Continue` with the source still running, and the following
cycle removes the source. -/
theorem stop_is_deferred_witness :
    (Inv (running [jobStop, jobIdle]) ∧ is_running (running [jobStop, jobIdle]) = true ∧
      is_running (stop (running [jobStop, jobIdle])) = true) ∧
    (dispatch 2 (running [jobStop, jobIdle])).map
      (fun p => (p.1, is_running p.2, p.2.ran, p.2.queue)) =
      some (G_SOURCE_CONTINUE, true, [3], [jobIdle]) ∧
    ((dispatch 2 (running [jobStop, jobIdle])).bind
      (fun p => dispatch 2 p.2)).map (fun p => p.1) = some G_SOURCE_REMOVE ∧
    ((dispatchCycle 2 (running [jobStop, jobIdle])).bind (dispatchCycle 2)).map
      is_running = some false :=
  ⟨⟨by decide, by decide,
      (stop_is_deferred (running [jobStop, jobIdle]) (by decide) (by decide)).1⟩,
    by decide, by decide, by decide⟩

/-- C9: a `dispatch()` that starts with a gate that is not cancelled hands
`runJobs` the token that was current at entry.  When a job of that drain calls
`stop()` and then `start()`, the gate is replaced: the token captured at entry
reads as cancelled (the drain stops on it, the jobs behind stay queued), the
current token is another one and is not cancelled, and `dispatch()` returns
`Continue`. -/
theorem dispatch_keeps_captured_token (s : State) (hi : Inv s)
    (hc : g_cancellable_is_cancelled s s.m_cancellable = false) :
    (∀ fuel, dispatch fuel s =
      (runJobs fuel (g_source_set_ready_time s (-1)) s.m_cancellable).map
        (fun s2 => (G_SOURCE_CONTINUE, s2))) ∧
    (∀ fuel n k rest,
      s.queue = { name := n, body := Script.stop (Script.start k) } :: rest →
      k.stops = false →
      ∃ s1, dispatch (fuel + 1) s = some (G_SOURCE_CONTINUE, s1) ∧
        g_cancellable_is_cancelled s1 s.m_cancellable = true ∧
        s1.m_cancellable ≠ s.m_cancellable ∧
        g_cancellable_is_cancelled s1 s1.m_cancellable = false ∧
        s1.ran = s.ran ++ [n] ∧
        s1.queue = rest ++ k.enqueued) := by
  have hv : s.m_cancellable < s.cancellables.length := hi.1
  refine ⟨fun fuel => dispatch_of_not_cancelled fuel s hc, ?_⟩
  intro fuel n k rest hq hk
  obtain ⟨hx, hne, hn⟩ := runScript_stop_start_gate k
    { s with queue := rest, ran := s.ran ++ [n],
             runJobsCalls := s.runJobsCalls + 1, ready_time := -1 } hv hk
  have hd := dispatch_first_job_cancels fuel s
    { name := n, body := Script.stop (Script.start k) } rest hc hq hx
  refine ⟨_, hd, hx, hne, hn, ?_, ?_⟩
  · rw [runScript_ran]
  · rw [runScript_queue]; rfl

/-- Witness of C9: the first queued job calls `stop()` and then `start()`;
after the dispatch the token captured at entry, `0`, is cancelled, the current
token is `1` and is not, and the job behind is still queued. -/
theorem dispatch_keeps_captured_token_witness :
    (Inv (running [jobRestart, jobIdle]) ∧
      (running [jobRestart, jobIdle]).m_cancellable = 0 ∧
      ∀ fuel, dispatch fuel (running [jobRestart, jobIdle]) =
        (runJobs fuel (g_source_set_ready_time (running [jobRestart, jobIdle]) (-1))
          (running [jobRestart, jobIdle]).m_cancellable).map
          (fun s2 => (G_SOURCE_CONTINUE, s2))) ∧
    (dispatch 2 (running [jobRestart, jobIdle])).map
      (fun p => (p.1, p.2.m_cancellable, g_cancellable_is_cancelled p.2 0,
        g_cancellable_is_cancelled p.2 1, p.2.queue)) =
      some (G_SOURCE_CONTINUE, 1, true, false, [jobIdle]) :=
  ⟨⟨by decide, by decide,
      (dispatch_keeps_captured_token (running [jobRestart, jobIdle])
        (by decide) (by decide)).1⟩,
    by decide⟩

/-- C6: restart after stop.  From a freshly constructed dispatcher the
sequence `start(); stop();` one dispatch cycle (which returns `Remove` and
detaches the source); `start()`, repeated any positive number of times, ends
with the source running, attached once, and its current gate not cancelled; no
queued job was run or lost on the way.  A later `dispatch()`, also after
further jobs were enqueued, returns `Continue`, and when no job calls `stop()`
it runs them all. -/
theorem restart_after_stop (queue : List Job) (ran : List Nat) (heap : List Bool)
    (nextSourceId main_context n fuel : Nat) :
    ∃ s1, restartSequences fuel (n + 1)
        (construct queue ran heap nextSourceId main_context) = some s1 ∧
      is_running s1 = true ∧
      g_cancellable_is_cancelled s1 s1.m_cancellable = false ∧
      s1.registrations = 1 ∧
      s1.queue = queue ∧
      s1.ran = ran ∧
      (∀ js fuel2, queueWeight (queue ++ js) ≤ fuel2 →
        ∃ s2, dispatch fuel2 { s1 with queue := s1.queue ++ js } =
            some (G_SOURCE_CONTINUE, s2) ∧
          (queueCallsStop (queue ++ js) = false →
            s2.queue = [] ∧ List.Perm s2.ran (ran ++ queueFamily (queue ++ js)))) := by
  obtain ⟨s1, h1, h2, h3, h4, h5, h6⟩ := restartSequences_spec fuel n
    (construct queue ran heap nextSourceId main_context) (construct_inv _ _ _ _ _)
  have hq : s1.queue = queue := h5
  have hran : s1.ran = ran := h6
  refine ⟨s1, h1, h3, h4, ?_, hq, hran, ?_⟩
  · have h7 := h2.2.2.2.2
    have hc : s1.context.isSome = true := h3
    simpa [hc] using h7
  · intro js fuel2 hw
    have hc : g_cancellable_is_cancelled { s1 with queue := s1.queue ++ js }
        ({ s1 with queue := s1.queue ++ js } : State).m_cancellable = false := h4
    have hw1 : queueWeight ({ s1 with queue := s1.queue ++ js } : State).queue ≤ fuel2 := by
      show queueWeight (s1.queue ++ js) ≤ fuel2
      rw [hq]; exact hw
    obtain ⟨s2, h8⟩ := dispatch_continue_of_not_cancelled fuel2 _ hc hw1
    refine ⟨s2, h8, ?_⟩
    intro hs
    have hs1 : queueCallsStop ({ s1 with queue := s1.queue ++ js } : State).queue = false := by
      show queueCallsStop (s1.queue ++ js) = false
      rw [hq]; exact hs
    obtain ⟨s3, h9, h10, h11⟩ := dispatch_drains _ fuel2 hc hs1 hw1
    rw [h8] at h9
    cases h9
    refine ⟨h10, ?_⟩
    have h12 : List.Perm s2.ran (s1.ran ++ queueFamily (s1.queue ++ js)) := h11
    rw [hq, hran] at h12
    exact h12

/-- Witness of C6: the sequence carried out three times on a dispatcher
constructed over one queued job; the job is still queued, and the dispatch
that follows runs it and the job it enqueues. -/
theorem restart_after_stop_witness :
    (∃ s1, restartSequences 0 3 (fresh [jobA]) = some s1 ∧
      is_running s1 = true ∧
      g_cancellable_is_cancelled s1 s1.m_cancellable = false ∧
      s1.registrations = 1 ∧ s1.queue = [jobA] ∧ s1.ran = []) ∧
    ((restartSequences 0 3 (fresh [jobA])).bind (dispatch 2)).map
      (fun p => (p.1, p.2.ran, p.2.queue, p.2.m_cancellable)) =
      some (G_SOURCE_CONTINUE, [1, 2], [], 3) :=
  ⟨(restart_after_stop [jobA] [] [] 0 0 2 0).imp
      (fun _ h => ⟨h.1, h.2.1, h.2.2.1, h.2.2.2.1, h.2.2.2.2.1, h.2.2.2.2.2.1⟩),
    by decide⟩

/-- C10: the priority of the drain source is the constant
`10 * G_PRIORITY_HIGH`, which is `-1000`; the constructor sets it and no
operation changes it; it lies strictly below every priority from
`G_PRIORITY_HIGH` to `G_PRIORITY_LOW`; and in a loop that serves the lowest
priority value first, a drain source with a job queued is dispatched before
every other ready source whose priority value is greater. -/
theorem priority_fixed_and_first :
    PRIORITY = 10 * G_PRIORITY_HIGH ∧
    PRIORITY = -1000 ∧
    (∀ queue ran heap nextSourceId main_context,
      (construct queue ran heap nextSourceId main_context).priority = PRIORITY) ∧
    (∀ s : State,
      (start s).priority = s.priority ∧
      (stop s).priority = s.priority ∧
      (reset s).priority = s.priority ∧
      (prepare s).2.priority = s.priority ∧
      ∀ fuel r s1, dispatch fuel s = some (r, s1) → s1.priority = s.priority) ∧
    (∀ p : Int, G_PRIORITY_HIGH ≤ p → p ≤ G_PRIORITY_LOW → PRIORITY < p) ∧
    (∀ (s : State) (srcs : List LoopSource) (o : LoopSource),
      s.priority = PRIORITY → s.queue ≠ [] →
      drainSource s ∈ srcs → o ∈ srcs → o.ready = true → PRIORITY < o.priority →
      drainSource s ∈ dispatchOrder srcs ∧ o ∈ dispatchOrder srcs ∧
      (dispatchOrder srcs).indexOf (drainSource s) < (dispatchOrder srcs).indexOf o) := by
  refine ⟨rfl, by decide, ?_, ?_, ?_, ?_⟩
  · intro queue ran heap nextSourceId main_context
    rfl
  · intro s
    refine ⟨start_priority s, stop_priority s, reset_priority s, rfl, ?_⟩
    intro fuel r s1 hd
    cases hc : g_cancellable_is_cancelled s s.m_cancellable
    · exact dispatch_preserves (fun x => x.priority = s.priority)
        (fun x j rest hx _ => (runScript_priority _ _).trans hx)
        fuel s s1 r rfl hc hd
    · rw [dispatch_of_cancelled fuel s hc] at hd
      cases hd
      rfl
  · intro p h1 h2
    simp only [PRIORITY, G_PRIORITY_HIGH] at *
    omega
  · intro s srcs o hp hq hd ho hor hlt
    have hready : (drainSource s).ready = true := by
      cases hq1 : s.queue with
      | nil => exact absurd hq1 hq
      | cons j rest => simp [drainSource, prepare, empty, hq1]
    have hd1 : drainSource s ∈ dispatchOrder srcs :=
      (mem_dispatchOrder _ _).mpr ⟨hd, hready⟩
    have ho1 : o ∈ dispatchOrder srcs := (mem_dispatchOrder _ _).mpr ⟨ho, hor⟩
    refine ⟨hd1, ho1, ?_⟩
    exact indexOf_lt_of_priority_lt _ _ _ (pairwise_dispatchOrder srcs) hd1 ho1
      (by show s.priority < o.priority; rw [hp]; exact hlt)

/-- An instance of C10: a loop with a ready source of default priority, the
drain source with one job queued, and a ready source of low priority
dispatches the drain source first. -/
theorem priority_fixed_and_first_witness :
    dispatchOrder
      [{ id := 1, priority := 0, ready := true }, drainSource (running [jobA]),
        { id := 2, priority := 300, ready := true },
        { id := 3, priority := -100, ready := false }] =
      [{ id := 0, priority := -1000, ready := true },
        { id := 1, priority := 0, ready := true },
        { id := 2, priority := 300, ready := true }] ∧
    (dispatchOrder
      [{ id := 1, priority := 0, ready := true }, drainSource (running [jobA]),
        { id := 2, priority := 300, ready := true }]).indexOf
        (drainSource (running [jobA])) <
      (dispatchOrder
        [{ id := 1, priority := 0, ready := true }, drainSource (running [jobA]),
          { id := 2, priority := 300, ready := true }]).indexOf
        { id := 1, priority := 0, ready := true } :=
  ⟨by decide,
    (priority_fixed_and_first.2.2.2.2.2 (running [jobA]) _ _ (by decide) (by decide)
      (by decide) (by decide) (by decide) (by decide)).2.2⟩

end Gjs
